import Mathlib

/-!
Verification development for the Clip-Scraper repository.

The Python sources (`clip_scraper.py`, `super_resolution.py`) are shallowly
embedded below.  Network, subprocess and model calls are abstracted as oracle
functions packaged in `World` / `SRWorld` structures; everything else follows
the Python control flow line by line.  Python string/path helpers
(`urllib.parse.urlsplit` path extraction, `os.path.basename`,
`os.path.splitext`, `pathlib.PurePath.suffix`, `str.split`, `str.format`) are
modelled over ASCII strings; the Python regex class `\w` is modelled as
ASCII alphanumeric plus underscore.
-/

namespace ClipScraper

/-- If `pre` is a prefix of `l`, the remainder of `l` after it. -/
def dropPrefixChars : List Char → List Char → Option (List Char)
  | [], l => some l
  | _ :: _, [] => none
  | p :: ps, c :: cs => if c = p then dropPrefixChars ps cs else none

/-- Left-to-right non-overlapping split on a separator, fuel-bounded so that
the recursion is structural (callers pass `fuel ≥ length + 1`, which always
suffices for a non-empty separator). -/
def splitOnCharsAux (sep : List Char) : Nat → List Char → List Char → List (List Char)
  | 0, cur, _ => [cur.reverse]
  | _ + 1, cur, [] => [cur.reverse]
  | fuel + 1, cur, c :: cs =>
    match dropPrefixChars sep (c :: cs) with
    | some rest => cur.reverse :: splitOnCharsAux sep fuel [] rest
    | none => splitOnCharsAux sep fuel (c :: cur) cs

/-- Python `s.split(sep)` for a non-empty separator. -/
def pySplit (s sep : String) : List String :=
  (splitOnCharsAux sep.data (s.data.length + 1) [] s.data).map String.mk

/-- Substring containment, modelling Python's `pat in s` (for non-empty `pat`). -/
def containsSub (s pat : String) : Bool :=
  (pySplit s pat).length ≥ 2

/-- The first `n` characters. -/
def strTake (s : String) (n : Nat) : String :=
  String.mk (s.data.take n)

/-- The string without its first `n` characters. -/
def strDrop (s : String) (n : Nat) : String :=
  String.mk (s.data.drop n)

/-- Python `s.startswith(pre)`. -/
def strStartsWith (s pre : String) : Bool :=
  pre.data.isPrefixOf s.data

/-- Python `s.endswith(suf)`. -/
def strEndsWith (s suf : String) : Bool :=
  suf.data.reverse.isPrefixOf s.data.reverse

/-- Python `s.lower()`, for ASCII. -/
def strToLower (s : String) : String :=
  String.mk (s.data.map Char.toLower)

/-- Python `s.endswith(tuple)`. -/
def endsWithAny (exts : List String) (s : String) : Bool :=
  exts.any (fun e => strEndsWith s e)

/-- Python `s.split(sep)[i]` for a non-empty separator: the i-th piece of the
full split, `""` when the index is out of range. -/
def splitPart (s sep : String) (i : Nat) : String :=
  ((pySplit s sep).drop i).headD ""

/-- Python `s.split()` (whitespace split with empty pieces collapsed),
modelled for ASCII spaces. -/
def pySplitWs (s : String) : List String :=
  (pySplit s " ").filter (fun p => p ≠ "")

/-- Python `a or b` on strings: `a` unless it is empty (falsy). -/
def pyOrStr (a b : String) : String :=
  if a = "" then b else a

/-- `sep.flatten(parts)`. -/
def strIntercalate (sep : String) : List String → String
  | [] => ""
  | [p] => p
  | p :: rest => p ++ sep ++ strIntercalate sep rest

/-- `os.path.basename` for POSIX paths: everything after the last slash. -/
def basename (p : String) : String :=
  ((pySplit p "/").getLast? ).getD ""

/-- Index of the last occurrence of `c` in the list, if any. -/
def rfindIdx (c : Char) : List Char → Option Nat
  | [] => none
  | x :: xs =>
    match rfindIdx c xs with
    | some j => some (j + 1)
    | none => if x = c then some 0 else none

/-- Core of `os.path.splitext` (POSIX): split at the last dot, unless that dot
sits inside the leading run of dots of the basename. -/
def splitextCore (l : List Char) : List Char × List Char :=
  match rfindIdx '.' l with
  | none => (l, [])
  | some di =>
    let si := match rfindIdx '/' l with
      | none => 0
      | some k => k + 1
    if si ≤ di ∧ ((l.drop si).take (di - si)).any (fun c => c ≠ '.') then
      (l.take di, l.drop di)
    else
      (l, [])

/-- `os.path.splitext` on strings. -/
def splitext (s : String) : String × String :=
  let p := splitextCore s.data
  (String.mk p.1, String.mk p.2)

/-- The final path component, as `pathlib.PurePath.name` (POSIX). -/
def pathName (p : String) : String := basename p

/-- `pathlib.PurePath.suffix`: the extension of the final component; empty for
dotfiles and for names ending in a bare dot. -/
def pathSuffix (p : String) : String :=
  let name := pathName p
  match rfindIdx '.' name.data with
  | none => ""
  | some i => if 0 < i ∧ i + 1 < name.length then String.mk (name.data.drop i) else ""

/-- `pathlib.PurePath.stem`: the final component without its suffix. -/
def pathStem (p : String) : String :=
  let name := pathName p
  match rfindIdx '.' name.data with
  | none => name
  | some i => if 0 < i ∧ i + 1 < name.length then String.mk (name.data.take i) else name

/-- Python regex `\w` over ASCII: alphanumeric or underscore. -/
def isWordChar (c : Char) : Bool := c.isAlphanum || c = '_'

/-- The conservative safe set of `re.sub(r'[^\w\-_.]', '_', ...)`
(clip_scraper.py line 411). -/
def safeChar (c : Char) : Bool := isWordChar c || c = '-' || c = '.'

/-- `re.sub(r'[^\w\-_.]', '_', s)` (clip_scraper.py line 411). -/
def sanitizeFilename (s : String) : String :=
  String.mk (s.data.map (fun c => if safeChar c then c else '_'))

/-- `re.sub(r'[^\w\-_. ]', '_', s)` (clip_scraper.py line 402): the title
sanitizer additionally keeps spaces. -/
def sanitizeTitle (s : String) : String :=
  String.mk (s.data.map (fun c => if safeChar c || c = ' ' then c else '_'))

/-- Valid scheme characters of `urllib.parse` (letters, digits, `+`, `-`, `.`). -/
def isSchemeChar (c : Char) : Bool := c.isAlphanum || c = '+' || c = '-' || c = '.'

/-- Strip a leading `scheme:` as `urlsplit` does: only when the text before the
first colon is a valid scheme starting with a letter. -/
def stripScheme (u : String) : String :=
  match pySplit u ":" with
  | pre :: _ :: _ =>
    if pre ≠ "" ∧ (pre.data.headD 'a').isAlpha ∧ pre.data.all isSchemeChar then
      strDrop u (pre.length + 1)
    else u
  | _ => u

/-- Drop a leading `//netloc`, terminated by the first `/`, `?` or `#`. -/
def dropNetloc (u : String) : String :=
  if strStartsWith u "//" then
    String.mk ((strDrop u 2).data.dropWhile (fun c => c ≠ '/' ∧ c ≠ '?' ∧ c ≠ '#'))
  else u

/-- The `.path` component of `urllib.parse.urlparse`: scheme and netloc
stripped, then truncated at the first `#` and the first `?`. -/
def urlparsePath (url : String) : String :=
  let u := dropNetloc (stripScheme url)
  let u := (pySplit u "#").headD ""
  (pySplit u "?").headD ""

/-- The `.netloc` component of `urllib.parse.urlparse` (used only as an
absolute/relative test in the Sakugabooru adapter). -/
def urlparseNetloc (url : String) : String :=
  let u := stripScheme url
  if strStartsWith u "//" then
    String.mk ((strDrop u 2).data.takeWhile (fun c => c ≠ '/' ∧ c ≠ '?' ∧ c ≠ '#'))
  else ""

/-- `urllib.parse.urljoin base link`, modelled for the cases the scraper can
hit (absolute http(s) base, relative link): a root-relative link replaces the
base's path, any other relative link is resolved against the base's
directory.  Only reached when `link` has no netloc. -/
def urljoinModel (base link : String) : String :=
  let scheme := match pySplit base "://" with
    | pre :: _ :: _ => pre ++ "://"
    | _ => ""
  let rest := (pySplit base "://").getD 1 base
  let host := String.mk (rest.data.takeWhile (fun c => c ≠ '/'))
  if strStartsWith link "/" then
    scheme ++ host ++ link
  else
    let path := urlparsePath base
    let dir := String.mk (path.data.take (((rfindIdx '/' path.data).map (· + 1)).getD 0))
    scheme ++ host ++ dir ++ link

/-- `source['page_param'].format(page)`: every `{}` replaced by the page
number. -/
def formatPageParam (pat : String) (page : Nat) : String :=
  strIntercalate (toString page) (pySplit pat "\x7b\x7d")

/-! ## Data model -/

/-- A clip reference, as built by the adapters (the Python code uses plain
dicts; fields absent from a given adapter's dict are modelled with the empty
string, matching Python's falsy `get` defaults). -/
structure Clip where
  source : String := ""
  url : String := ""
  title : String := ""
  author : String := ""
  thumbnail : String := ""
  tags : List String := []
  duration : Option Nat := none
  deriving DecidableEq, Repr

/-- One source configuration dict.  The Python code stores heterogeneous dicts
in `config['sources']`; this structure carries the union of the fields the
four adapters read, with the defaults the code supplies via `.get`. -/
structure SourceCfg where
  name : String := ""
  base_url : String := ""
  page_param : String := ""
  clip_selector : String := ""
  link_selector : String := ""
  next_page_selector : String := ""
  max_pages : Nat := 0
  max_items : Nat := 0
  search_term : String := "anime clips"
  max_results : Nat := 10
  min_duration : Nat := 10
  max_duration : Nat := 180
  deriving Repr

/-- The scraper configuration (`config.json` fields the core reads). -/
structure Config where
  sources : List SourceCfg := []
  download_limit : Nat := 10
  prefer_video : Bool := true
  deriving Repr

/-- A listing element selected in a Sakugabooru page:
`link` is the `href` of the element found by the link selector (none when the
selector finds nothing or the attribute is missing), `data_tags` the optional
`data-tags` attribute. -/
structure SElement where
  link : Option String := none
  data_tags : Option String := none
  deriving Repr

/-- One Reddit post (`post['data']`): `url`, `title`, `author`, and the
optional `secure_media.reddit_video.fallback_url`. -/
structure RPost where
  url : Option String := none
  title : String := ""
  author : String := ""
  fallback_url : Option String := none
  deriving Repr

/-- One flat YouTube search entry. -/
structure YEntry where
  isPlaylist : Bool := false
  id : Option String := none
  deriving Repr

/-- Detailed YouTube video info (`ydl.extract_info` on a watch URL). -/
structure YDetail where
  duration : Option Nat := none
  title : String := ""
  thumbnail : String := ""
  tags : List String := []
  deriving Repr

/-- One Tenor gallery element: the `src` / `data-src` attributes of the image
found by the link selector (empty string models a missing attribute, which is
falsy in Python), plus the `alt` text. -/
structure TElement where
  src : String := ""
  data_src : String := ""
  alt : String := ""
  deriving Repr

/-- Outcome of the direct byte-stream download of an image URL
(`requests.get` at clip_scraper.py line 435): success, a non-success HTTP
status, or a raised exception. -/
inductive DirectOutcome where
  | ok
  | httpFail
  | exn
  deriving DecidableEq, Repr

/-- The external world: network fetches and external tools, as deterministic
oracles.  `pages url` models `requests.get` on a listing page (`Except.error`
= the request raised, `some` page data = parsed HTML with the selected
elements and whether a next-page element exists, `none` = non-success
status); similarly for `reddit` (error also covers a `response.json()`
failure) and `tenor` (`none` covers both a non-success status and a raised
exception, which the Python code treats alike).  `ytSearch`/`ytDetail` model
`yt_dlp` search and per-video metadata (`none` = failure).  `direct`,
`fallback` and `ytdlp` model the download attempts of `download_clips`. -/
structure World where
  pages : String → Except Unit (Option (List SElement × Bool))
  reddit : String → Except Unit (Option (List RPost))
  ytSearch : String → Option (List (Option YEntry))
  ytDetail : String → Option YDetail
  tenor : String → Option (List TElement)
  direct : Clip → DirectOutcome
  fallback : Clip → Bool
  ytdlp : Clip → Bool

/-! ## Source adapters -/

/-- The URL fetched for a given Sakugabooru page (clip_scraper.py 117-119). -/
def sakugaPageUrl (src : SourceCfg) (page : Nat) : String :=
  if page > 1 then src.base_url ++ "&" ++ formatPageParam src.page_param page
  else src.base_url

/-- Per-element processing of the Sakugabooru listing
(clip_scraper.py 131-158): keep the link when it mentions a media extension,
absolutize it when it has no netloc, and split the `data-tags` attribute. -/
def sakugaElemClip (src : SourceCfg) (e : SElement) : Option Clip :=
  match e.link with
  | none => none
  | some link =>
    if ([".mp4", ".webm", ".gif"].any (fun ext => containsSub (strToLower link) ext)) then
      let link := if urlparseNetloc link = "" then urljoinModel src.base_url link else link
      let tags := match e.data_tags with
        | some t => pySplitWs t
        | none => []
      some { source := src.name, url := link, tags := tags }
    else none

/-- The pagination loop of `scrape_sakugabooru` (clip_scraper.py 116-172).
`remaining` counts the pages still allowed by `max_pages`; a raised request
propagates, a non-success status or a missing next-page element ends the
loop. -/
def sakugaLoop (cfg : Config) (w : World) (src : SourceCfg) :
    Nat → Nat → List Clip → Except Unit (List Clip)
  | 0, _, acc => .ok acc
  | remaining + 1, page, acc =>
    match w.pages (sakugaPageUrl src page) with
    | .error e => .error e
    | .ok none => .ok acc
    | .ok (some (elems, hasNext)) =>
      let acc := acc ++ elems.filterMap (sakugaElemClip src)
      if cfg.download_limit ≤ acc.length then .ok acc
      else if hasNext then sakugaLoop cfg w src remaining (page + 1) acc
      else .ok acc

/-- `AnimeClipScraper.scrape_sakugabooru` (clip_scraper.py 111-174). -/
def scrape_sakugabooru (cfg : Config) (w : World) (src : SourceCfg) :
    Except Unit (List Clip) :=
  (sakugaLoop cfg w src src.max_pages 1 []).map (fun clips => clips.take cfg.download_limit)

/-- Media extensions accepted by the Reddit adapter (clip_scraper.py 207,
checked case-sensitively with `str.endswith`). -/
def redditMediaExts : List String := [".mp4", ".gif", ".webm", ".jpg", ".jpeg", ".png"]

/-- URL resolution for one Reddit post (clip_scraper.py 200-204): a
`v.redd.it` indirection is replaced by its declared fallback media URL when
one is present. -/
def redditResolve (p : RPost) (u : String) : String :=
  if containsSub u "v.redd.it" then
    match p.fallback_url with
    | some f => f
    | none => u
  else u

/-- Acceptance of one Reddit post (clip_scraper.py 207-214): append a clip
when the resolved URL ends in a media extension. -/
def redditAccept (srcName : String) (p : RPost) (u : String) (acc : List Clip) :
    List Clip :=
  if endsWithAny redditMediaExts u then
    acc ++ [{ source := srcName, url := u, title := p.title, author := p.author : Clip }]
  else acc

/-- The post loop of `scrape_reddit` (clip_scraper.py 192-217): skip galleries
and falsy URLs, substitute the `v.redd.it` fallback URL when present, accept
direct media links, stop once `download_limit` clips are collected. -/
def redditLoop (cfg : Config) (srcName : String) :
    List RPost → List Clip → List Clip
  | [], acc => acc
  | p :: rest, acc =>
    match p.url with
    | none => redditLoop cfg srcName rest acc
    | some u =>
      if u = "" ∨ containsSub u "gallery" then redditLoop cfg srcName rest acc
      else
        let acc' := redditAccept srcName p (redditResolve p u) acc
        if cfg.download_limit ≤ acc'.length then acc'
        else redditLoop cfg srcName rest acc'

/-- `AnimeClipScraper.scrape_reddit` (clip_scraper.py 176-219). -/
def scrape_reddit (cfg : Config) (w : World) (src : SourceCfg) :
    Except Unit (List Clip) :=
  match w.reddit src.base_url with
  | .error e => .error e
  | .ok none => .ok []
  | .ok (some posts) => .ok (redditLoop cfg src.name (posts.take src.max_items) [])

/-- The duration filter of `scrape_youtube` (clip_scraper.py 264-266):
a falsy duration (absent or zero) is never filtered. -/
def ytDurationRejected (src : SourceCfg) (d : Option Nat) : Bool :=
  match d with
  | none => false
  | some d => d ≠ 0 ∧ (d < src.min_duration ∨ src.max_duration < d)

/-- The entry loop of `scrape_youtube` (clip_scraper.py 250-285): skip falsy
entries, playlists and entries without an id, resolve detailed info (a raised
`extract_info` is caught per-entry), filter by duration and stop at
`max_results`. -/
def ytLoop (w : World) (src : SourceCfg) :
    List (Option YEntry) → List Clip → List Clip
  | [], acc => acc
  | e :: rest, acc =>
    match e with
    | none => ytLoop w src rest acc
    | some ent =>
      if ent.isPlaylist then ytLoop w src rest acc
      else
        match ent.id with
        | none => ytLoop w src rest acc
        | some vid =>
          let vurl := "https://www.youtube.com/watch?v=" ++ vid
          match w.ytDetail vurl with
          | none => ytLoop w src rest acc
          | some d =>
            if ytDurationRejected src d.duration then ytLoop w src rest acc
            else
              let acc' := acc ++ [{ source := "youtube", url := vurl, title := d.title,
                                    duration := d.duration, thumbnail := d.thumbnail,
                                    tags := d.tags : Clip }]
              if src.max_results ≤ acc'.length then acc'
              else ytLoop w src rest acc'

/-- `AnimeClipScraper.scrape_youtube` (clip_scraper.py 221-290).  The search
requests `2 * max_results` entries; a top-level failure yields no clips. -/
def scrape_youtube (w : World) (src : SourceCfg) : List Clip :=
  let searchUrl := "ytsearch" ++ toString (src.max_results * 2) ++ ":" ++ src.search_term
  (match w.ytSearch searchUrl with
   | none => []
   | some entries => ytLoop w src entries []).take src.max_results

/-- Tenor GIF id extraction (clip_scraper.py 336-341): the path component
following the first `images` component, when one exists. -/
def tenorGifId (parts : List String) : Option String :=
  match parts with
  | a :: b :: rest => if a = "images" then some b else tenorGifId (b :: rest)
  | _ => none

/-- Tenor URL normalization (clip_scraper.py 331-344): a non-`.gif`
`tenor.com` URL is rewritten to the canonical animated-image URL when a GIF id
can be extracted. -/
def tenorNormalize (src : String) : String :=
  if containsSub src "tenor.com" ∧ ¬ (strEndsWith src ".gif") then
    match (if containsSub src "/images/" then tenorGifId (src.splitOn "/") else none) with
    | some gid => "https://media.tenor.com/images/" ++ gid ++ "/tenor.gif"
    | none => src
  else src

/-- The element loop of `scrape_tenor` (clip_scraper.py 317-363). -/
def tenorLoop (cfg : Config) (src : SourceCfg) (searchTerm : String) :
    List TElement → List Clip → List Clip
  | [], acc => acc
  | e :: rest, acc =>
    let s := pyOrStr e.src e.data_src
    if s = "" then tenorLoop cfg src searchTerm rest acc
    else
      let s := tenorNormalize s
      if strEndsWith (strToLower s) ".gif" then
        let title := if e.alt ≠ "" ∧ e.alt ≠ "tenor" then e.alt
          else "tenor_gif_" ++ toString acc.length
        let acc' := acc ++ [{ source := src.name, url := s, title := title,
                              tags := ["anime", searchTerm] : Clip }]
        if cfg.download_limit ≤ acc'.length then acc'
        else tenorLoop cfg src searchTerm rest acc'
      else tenorLoop cfg src searchTerm rest acc

/-- `AnimeClipScraper.scrape_tenor` (clip_scraper.py 292-370).  A non-success
status or a raised exception both yield the clips collected so far (none). -/
def scrape_tenor (cfg : Config) (w : World) (src : SourceCfg) : List Clip :=
  let searchTerm := if src.search_term = "" then "anime" else src.search_term
  let baseUrl := if containsSub src.base_url searchTerm then src.base_url
    else "https://tenor.com/search/" ++ searchTerm ++ "-gifs"
  (match w.tenor baseUrl with
   | none => []
   | some elems => tenorLoop cfg src searchTerm elems []).take cfg.download_limit

/-! ## Download scheduler -/

/-- The raw filename before sanitization (clip_scraper.py 392-408): YouTube
URLs get a name built from the cleaned title and the video id when both are
truthy, everything else uses the basename of the URL's path. -/
def rawFilename (clip : Clip) : String :=
  let url := clip.url
  if containsSub url "youtube.com" ∨ containsSub url "youtu.be" then
    let video_id : String :=
      if containsSub url "youtube.com/watch" ∧ containsSub url "v=" then
        splitPart (splitPart url "v=" 1) "&" 0
      else if containsSub url "youtu.be/" then
        splitPart (splitPart url "youtu.be/" 1) "?" 0
      else ""
    if video_id ≠ "" ∧ clip.title ≠ "" then
      strTake (sanitizeTitle clip.title) 50 ++ "_" ++ video_id ++ ".mp4"
    else basename (urlparsePath url)
  else basename (urlparsePath url)

/-- The sanitized filename before the extension check (clip_scraper.py 411). -/
def preExtFilename (clip : Clip) : String :=
  sanitizeFilename (rawFilename clip)

/-- The derived filename (clip_scraper.py 392-413): sanitized, with `.mp4`
appended when `os.path.splitext` finds no extension. -/
def deriveFilename (clip : Clip) : String :=
  let f := preExtFilename clip
  if (splitext f).2 = "" then f ++ ".mp4" else f

/-- The destination path of a clip (clip_scraper.py 415). -/
def destPath (downloadDir : String) (clip : Clip) : String :=
  downloadDir ++ "/" ++ deriveFilename clip

/-- Video suffixes recorded for the enhancement stage
(clip_scraper.py 420, 472). -/
def isVideoSuffix (p : String) : Bool :=
  [".mp4", ".webm", ".mkv"].contains (strToLower (pathSuffix p))

/-- Image-class URLs downloaded by the direct byte stream
(clip_scraper.py 427). -/
def isImageUrl (url : String) : Bool :=
  endsWithAny [".gif", ".jpg", ".jpeg", ".png"] (strToLower url)

/-- The sort key of `download_clips` (clip_scraper.py 382-383): direct video
files first, YouTube URLs second, everything else last. -/
def sortKey (c : Clip) : Nat :=
  if endsWithAny [".mp4", ".webm"] (strToLower c.url) then 0
  else if containsSub (strToLower c.url) "youtube.com" then 1
  else 2

/-- Stable insertion used to model Python's stable `list.sort` with `sortKey`:
an element moves left past strictly greater keys only, so ties keep their
original order. -/
def insertByKey (c : Clip) : List Clip → List Clip
  | [] => [c]
  | x :: xs => if sortKey x < sortKey c then x :: insertByKey c xs else c :: x :: xs

/-- `clips.sort(key=...)` (clip_scraper.py 382): a stable sort by `sortKey`. -/
def sortClips (l : List Clip) : List Clip :=
  l.foldr insertByKey []

/-- Observable actions of one scheduler run. -/
inductive DEvent where
  | skippedExisting (c : Clip)
  | skippedImage (c : Clip)
  | wrote (p : String)
  | httpFailed (c : Clip)
  | fallbackTried (c : Clip)
  | fallbackFailed (c : Clip)
  | ytdlpFailed (c : Clip)
  deriving DecidableEq, Repr

/-- Scheduler state: the set of existing files, the recorded video list, the
files created by this run, and the event log. -/
structure DState where
  fs : List String := []
  vids : List String := []
  writes : List String := []
  events : List DEvent := []
  deriving Repr

/-- One iteration of the download loop (clip_scraper.py 388-478) for the clip
at position `i` of the ordered list. -/
def stepClip (cfg : Config) (w : World) (dir : String) (st : DState) (i : Nat)
    (c : Clip) : DState :=
  let path := destPath dir c
  if path ∈ st.fs then
    { st with
      vids := if isVideoSuffix path then st.vids ++ [path] else st.vids,
      events := st.events ++ [.skippedExisting c] }
  else if isImageUrl c.url then
    if cfg.prefer_video ∧ cfg.download_limit / 2 ≤ i then
      { st with events := st.events ++ [.skippedImage c] }
    else
      match w.direct c with
      | .ok =>
        { st with fs := path :: st.fs, writes := st.writes ++ [path],
                  events := st.events ++ [.wrote path] }
      | .httpFail =>
        { st with events := st.events ++ [.httpFailed c] }
      | .exn =>
        if w.fallback c then
          { st with fs := path :: st.fs, writes := st.writes ++ [path],
                    events := st.events ++ [.fallbackTried c, .wrote path] }
        else
          { st with events := st.events ++ [.fallbackTried c, .fallbackFailed c] }
  else
    if w.ytdlp c then
      { st with fs := path :: st.fs, writes := st.writes ++ [path],
                vids := if isVideoSuffix path then st.vids ++ [path] else st.vids,
                events := st.events ++ [.wrote path] }
    else
      { st with events := st.events ++ [.ytdlpFailed c] }

/-- The download loop over the ordered clip list, threading the position
index. -/
def runClips (cfg : Config) (w : World) (dir : String) :
    DState → Nat → List Clip → DState
  | st, _, [] => st
  | st, i, c :: rest => runClips cfg w dir (stepClip cfg w dir st i c) (i + 1) rest

/-- `AnimeClipScraper.download_clips` (clip_scraper.py 372-478): order the
clips when `prefer_video` is set, then materialize them against the file
set `fs0`. -/
def download_clips (cfg : Config) (w : World) (dir : String) (clips : List Clip)
    (fs0 : List String) : DState :=
  let ordered := if cfg.prefer_video then sortClips clips else clips
  runClips cfg w dir { fs := fs0 } 0 ordered

/-- Whether the iteration for position `i` creates the destination file, given
that it does not already exist (the branch structure of
clip_scraper.py 426-473 with the oracles of `w`). -/
def addsFile (cfg : Config) (w : World) (i : Nat) (c : Clip) : Bool :=
  if isImageUrl c.url then
    if cfg.prefer_video ∧ cfg.download_limit / 2 ≤ i then false
    else
      match w.direct c with
      | .ok => true
      | .httpFail => false
      | .exn => w.fallback c
  else w.ytdlp c

/-! ## Orchestrator -/

/-- The clips a configured source contributes inside `scrape`
(clip_scraper.py 500-521): dispatch by name, skip Tenor when video content is
preferred, skip unknown names, and swallow a raised adapter (the surrounding
`try` logs it and continues), all of which contribute no clips. -/
def sourceClips (cfg : Config) (w : World) (s : SourceCfg) : List Clip :=
  if s.name = "sakugabooru" then
    match scrape_sakugabooru cfg w s with
    | .ok clips => clips
    | .error _ => []
  else if s.name = "animeclips_reddit" then
    match scrape_reddit cfg w s with
    | .ok clips => clips
    | .error _ => []
  else if s.name = "tenor_anime" then
    if cfg.prefer_video then [] else scrape_tenor cfg w s
  else if s.name = "youtube_anime" then
    scrape_youtube w s
  else []

/-- The source loop of `scrape` (clip_scraper.py 500-521), accumulating
`all_clips` in configuration order. -/
def scrapeLoop (cfg : Config) (w : World) : List SourceCfg → List Clip
  | [] => []
  | s :: rest => sourceClips cfg w s ++ scrapeLoop cfg w rest

/-- `AnimeClipScraper.scrape` (clip_scraper.py 496-529): aggregate, truncate
to `download_limit`, download, and return the truncated list. -/
def scrape (cfg : Config) (w : World) (dir : String) (fs0 : List String) :
    List Clip × DState :=
  let all_clips := (scrapeLoop cfg w cfg.sources).take cfg.download_limit
  (all_clips, download_clips cfg w dir all_clips fs0)

end ClipScraper

namespace SuperResolution

open ClipScraper (pathStem pathSuffix)

/-- Abstract frame content. -/
abbrev Frame : Type := Nat

/-- A stored video: its ordered frames and its frame rate.  (Width, height and
frame count are derived from the frames in the Python code and are only
printed, so they are not carried separately.) -/
structure Video where
  frames : List Frame := []
  fps : Nat := 0
  deriving DecidableEq, Repr

/-- The video file system: an association list from path to content; the most
recent binding wins, so prepending models ffmpeg's `-y` overwrite. -/
abbrev VideoFS : Type := List (String × Video)

/-- Look up a path. -/
def videoLookup (fs : VideoFS) (p : String) : Option Video :=
  match fs with
  | [] => none
  | (q, v) :: rest => if q = p then some v else videoLookup rest p

/-- Store (or overwrite) a path. -/
def videoSet (fs : VideoFS) (p : String) (v : Video) : VideoFS :=
  (p, v) :: fs

/-- External capabilities of the enhancement pipeline: the per-frame
upscaling model (`none` = the model raised, handled per frame) and the
frame-sequence encoding process (`none` = ffmpeg reported failure).  The
model name, scale and denoise strength are parameters of these black boxes. -/
structure SRWorld where
  upscale : Frame → Option Frame
  encode : List Frame → Nat → String → Option Video

/-- Observable work done by one `process_video` invocation. -/
inductive SREvent where
  | upscaled (f : Frame)
  | encoded (outPath : String)
  deriving DecidableEq, Repr

/-- Result of `process_video`: the returned path, the resulting file system,
and the work performed. -/
structure SRResult where
  path : String
  fs : VideoFS
  events : List SREvent
  deriving Repr

/-- `SuperResolution.process_image` (super_resolution.py 93-109): on a model
failure the original frame is substituted. -/
def process_image (w : SRWorld) (f : Frame) : Frame :=
  (w.upscale f).getD f

/-- The output path of `process_video` (super_resolution.py 126-131): derived
by inserting `_upscaled` before the extension when not provided. -/
def outPathOf (inputPath : String) (outputPath? : Option String) : String :=
  match outputPath? with
  | some p => p
  | none => pathStem inputPath ++ "_upscaled" ++ pathSuffix inputPath

/-- The frames decoded from the input (an absent file yields no frames, as
`cv2.VideoCapture` then reads nothing). -/
def framesOf (fs : VideoFS) (inputPath : String) : List Frame :=
  ((videoLookup fs inputPath).map Video.frames).getD []

/-- The upscaled frame sequence written to the temporary store
(super_resolution.py 168-188; the chunk counter never batches anything, every
frame is processed and persisted in order). -/
def procFrames (w : SRWorld) (fs : VideoFS) (inputPath : String) : List Frame :=
  (framesOf fs inputPath).map (process_image w)

/-- The effective output frame rate (super_resolution.py 146-147). -/
def effFps (fs : VideoFS) (inputPath : String) (fps? : Option Nat) : Nat :=
  match fps? with
  | some f => f
  | none => ((videoLookup fs inputPath).map Video.fps).getD 0

/-- `SuperResolution.process_video` (super_resolution.py 111-231): decode all
frames, upscale each (substituting the original on a per-frame failure),
invoke the external encoder on the frame sequence, and return the output path
— or, when the encoder reports failure, the unchanged input path with the
file system untouched.  The temporary frame store is scoped by the `with`
block and gone on every exit path, so it does not appear in the result.
There is no check whether the output already exists: the pipeline always
recomputes. -/
def process_video (w : SRWorld) (fs : VideoFS) (inputPath : String)
    (outputPath? : Option String) (fps? : Option Nat) : SRResult :=
  let outputPath := outPathOf inputPath outputPath?
  let processed := procFrames w fs inputPath
  let evs := (framesOf fs inputPath).map SREvent.upscaled ++ [SREvent.encoded outputPath]
  match w.encode processed (effFps fs inputPath fps?) outputPath with
  | some v => { path := outputPath, fs := videoSet fs outputPath v, events := evs }
  | none => { path := inputPath, fs := fs, events := evs }

/-- State threaded through `batch_process_directory`. -/
structure BatchState where
  results : List String := []
  fs : VideoFS := []
  events : List SREvent := []
  deriving Repr

/-- The file loop of `SuperResolution.batch_process_directory`
(super_resolution.py 271-293) over the collected relative paths: an existing
output is reused (appended to the results without any processing) when
`skipExisting` is set, otherwise the file goes through `process_video`. -/
def batchLoop (w : SRWorld) (inputDir outputDir : String) (skipExisting : Bool) :
    List String → BatchState → BatchState
  | [], st => st
  | f :: rest, st =>
    let out := outputDir ++ "/" ++ f
    if skipExisting ∧ (videoLookup st.fs out).isSome then
      batchLoop w inputDir outputDir skipExisting rest
        { st with results := st.results ++ [out] }
    else
      let r := process_video w st.fs (inputDir ++ "/" ++ f) (some out) none
      batchLoop w inputDir outputDir skipExisting rest
        { results := st.results ++ [r.path], fs := r.fs, events := st.events ++ r.events }

/-- `SuperResolution.batch_process_directory` (super_resolution.py 233-294),
with the directory walk abstracted into the list `files` of relative paths it
collects. -/
def batch_process_directory (w : SRWorld) (fs0 : VideoFS) (files : List String)
    (inputDir outputDir : String) (skipExisting : Bool) : BatchState :=
  batchLoop w inputDir outputDir skipExisting files { fs := fs0 }

end SuperResolution

/-! ## Helper lemmas -/

namespace ClipScraper

/-- Appending at most one element grows a list's length by at most one. -/
theorem length_ite_append_le {α : Type} (C : Prop) [Decidable C] (acc : List α) (x : α) :
    (if C then acc ++ [x] else acc).length ≤ acc.length + 1 := by
  split <;> simp

/-- Accepting a post grows the clip list by at most one. -/
theorem redditAccept_length_le (n : String) (p : RPost) (u : String)
    (acc : List Clip) : (redditAccept n p u acc).length ≤ acc.length + 1 := by
  unfold redditAccept
  split <;> simp

/-- Each Reddit post contributes at most one clip. -/
theorem redditLoop_length_le (cfg : Config) (n : String) :
    ∀ (posts : List RPost) (acc : List Clip),
      (redditLoop cfg n posts acc).length ≤ acc.length + posts.length := by
  intro posts
  induction posts with
  | nil => intro acc; simp [redditLoop]
  | cons p rest ih =>
    intro acc
    cases hu : p.url with
    | none =>
      simp only [redditLoop, hu]
      exact le_trans (ih acc) (by simp only [List.length_cons]; omega)
    | some u =>
      simp only [redditLoop, hu]
      split
      · exact le_trans (ih acc) (by simp only [List.length_cons]; omega)
      · split
        · have h2 := redditAccept_length_le n p (redditResolve p u) acc
          simp only [List.length_cons]
          omega
        · refine le_trans (ih _) ?_
          have h2 := redditAccept_length_le n p (redditResolve p u) acc
          simp only [List.length_cons]
          omega

end ClipScraper

namespace ClipScraper

/-- The sort key takes only the three class values. -/
theorem sortKey_three (c : Clip) : sortKey c = 0 ∨ sortKey c = 1 ∨ sortKey c = 2 := by
  unfold sortKey
  split
  · exact Or.inl rfl
  · split
    · exact Or.inr (Or.inl rfl)
    · exact Or.inr (Or.inr rfl)

/-- Inserting an element passes over a block of strictly smaller keys. -/
theorem insertByKey_skip (c : Clip) (A t : List Clip)
    (hA : ∀ x ∈ A, sortKey x < sortKey c) :
    insertByKey c (A ++ t) = A ++ insertByKey c t := by
  induction A with
  | nil => rfl
  | cons a A ih =>
    simp only [List.cons_append, insertByKey, List.append_eq]
    rw [if_pos (hA a (List.mem_cons_self a A))]
    rw [ih (fun x hx => hA x (List.mem_cons_of_mem a hx))]

/-- Inserting an element in front of a block of keys at least its own keeps it
first (ties lose to the inserted element, which stood earlier). -/
theorem insertByKey_front (c : Clip) (t : List Clip)
    (ht : ∀ x ∈ t, sortKey c ≤ sortKey x) :
    insertByKey c t = c :: t := by
  cases t with
  | nil => rfl
  | cons x xs =>
    simp only [insertByKey]
    rw [if_neg (Nat.not_lt.mpr (ht x (List.mem_cons_self x xs)))]

/-- The key of a member of a key-filtered list. -/
theorem sortKey_of_mem_filter (k : Nat) (l : List Clip) (x : Clip)
    (hx : x ∈ l.filter (fun c => sortKey c == k)) : sortKey x = k := by
  have := List.of_mem_filter hx
  exact Nat.beq_eq ▸ of_decide_eq_true (by simpa using this)

/-- The stable sort of `download_clips` is exactly the concatenation of the
three key classes, each in original order. -/
theorem sortClips_buckets (l : List Clip) :
    sortClips l = l.filter (fun c => sortKey c == 0)
      ++ l.filter (fun c => sortKey c == 1)
      ++ l.filter (fun c => sortKey c == 2) := by
  induction l with
  | nil => rfl
  | cons c rest ih =>
    have hstep : sortClips (c :: rest) = insertByKey c (sortClips rest) := rfl
    rw [hstep, ih]
    rcases sortKey_three c with h0 | h1 | h2
    · have hfront := insertByKey_front c
        (rest.filter (fun x => sortKey x == 0) ++ rest.filter (fun x => sortKey x == 1)
          ++ rest.filter (fun x => sortKey x == 2))
        (fun x _ => h0 ▸ Nat.zero_le _)
      rw [hfront]
      rw [List.filter_cons_of_pos (by simp [h0]),
          List.filter_cons_of_neg (by simp [h0]),
          List.filter_cons_of_neg (by simp [h0])]
      simp
    · rw [List.append_assoc]
      rw [insertByKey_skip c _ _
        (fun x hx => by rw [sortKey_of_mem_filter 0 rest x hx, h1]; omega)]
      rw [insertByKey_front c _ (by
        intro x hx
        rcases List.mem_append.mp hx with hB | hC
        · rw [sortKey_of_mem_filter 1 rest x hB, h1]
        · rw [sortKey_of_mem_filter 2 rest x hC, h1]; omega)]
      rw [List.filter_cons_of_neg (by simp [h1]),
          List.filter_cons_of_pos (by simp [h1]),
          List.filter_cons_of_neg (by simp [h1])]
      try simp
    · rw [insertByKey_skip c _ _ (by
        intro x hx
        rcases List.mem_append.mp hx with hA | hB
        · rw [sortKey_of_mem_filter 0 rest x hA, h2]; omega
        · rw [sortKey_of_mem_filter 1 rest x hB, h2]; omega)]
      rw [insertByKey_front c _
        (fun x hx => by rw [sortKey_of_mem_filter 2 rest x hx, h2])]
      rw [List.filter_cons_of_neg (by simp [h2]),
          List.filter_cons_of_neg (by simp [h2]),
          List.filter_cons_of_pos (by simp [h2])]
      try simp

end ClipScraper

/-! ## Claim theorems -/

open ClipScraper SuperResolution

/-- C1: for every SourceConfig variant, `fetch` returns at most the configured
cap of clip references, for every underlying listing: `download_limit` for the
paginated-HTML (Sakugabooru) and gallery-HTML (Tenor) adapters, `max_items`
for the JSON-feed (Reddit) adapter, `max_results` for the search-engine
(YouTube) adapter. -/
theorem C1_fetch_bounded (cfg : Config) (w : World) (src : SourceCfg)
    (r₁ r₂ : List Clip) :
    (scrape_sakugabooru cfg w src = .ok r₁ → r₁.length ≤ cfg.download_limit)
    ∧ (scrape_reddit cfg w src = .ok r₂ → r₂.length ≤ src.max_items)
    ∧ (scrape_youtube w src).length ≤ src.max_results
    ∧ (scrape_tenor cfg w src).length ≤ cfg.download_limit := by
  refine ⟨?_, ?_, ?_, ?_⟩
  · intro h
    unfold scrape_sakugabooru at h
    cases hres : sakugaLoop cfg w src src.max_pages 1 [] with
    | error e => rw [hres] at h; simp [Except.map] at h
    | ok l =>
      rw [hres] at h
      simp [Except.map] at h
      subst h
      exact List.length_take_le cfg.download_limit l
  · intro h
    unfold scrape_reddit at h
    cases hres : w.reddit src.base_url with
    | error e => rw [hres] at h; simp at h
    | ok o =>
      rw [hres] at h
      cases o with
      | none => simp at h; subst h; simp
      | some posts =>
        simp at h
        subst h
        calc (redditLoop cfg src.name (posts.take src.max_items) []).length
            ≤ ([] : List Clip).length + (posts.take src.max_items).length :=
              redditLoop_length_le cfg src.name _ _
          _ ≤ src.max_items := by
              simp only [List.length_nil, Nat.zero_add]
              exact List.length_take_le src.max_items posts
  · unfold scrape_youtube
    exact List.length_take_le _ _
  · unfold scrape_tenor
    exact List.length_take_le _ _

/-- C4: when the external frame-sequence encoder reports failure,
`process_video` returns the original input path unchanged and the video file
system (in particular the input file's contents) is left untouched; the
failure yields a normal return value, not an exception. -/
theorem C4_encoder_failure_returns_input (w : SRWorld) (fs : VideoFS)
    (input : String) (outputPath? : Option String) (fps? : Option Nat)
    (h : w.encode (procFrames w fs input) (effFps fs input fps?)
          (outPathOf input outputPath?) = none) :
    (process_video w fs input outputPath? fps?).path = input
    ∧ (process_video w fs input outputPath? fps?).fs = fs := by
  simp only [process_video]
  rw [h]
  exact ⟨rfl, rfl⟩

/-- C4 witness: the encoder-failure behavior at a concrete world and file
system. -/
theorem C4_encoder_failure_returns_input_witness :
    let w : SRWorld := { upscale := fun f => some (f + 1), encode := fun _ _ _ => none }
    let fs : VideoFS := [("in.mp4", { frames := [3, 4], fps := 24 })]
    (process_video w fs "in.mp4" (some "out.mp4") none).path = "in.mp4"
    ∧ (process_video w fs "in.mp4" (some "out.mp4") none).fs = fs := by
  intro w fs
  exact C4_encoder_failure_returns_input w fs "in.mp4" (some "out.mp4") none rfl

/-- C8: on a JSON feed with exactly three entries — a gallery link, a direct
`.mp4` link, and a `v.redd.it` indirection with a declared fallback URL —
`scrape_reddit` returns exactly two references: the direct link and the
indirection resolved to its fallback URL; the gallery entry is excluded. -/
theorem C8_reddit_three_entry_feed :
    let cfg : Config := { download_limit := 10 }
    let src : SourceCfg := { name := "animeclips_reddit",
                             base_url := "https://www.reddit.com/r/AnimeSakuga/hot/.json",
                             max_items := 20 }
    let feed : List RPost :=
      [ { url := some "https://www.reddit.com/gallery/abc", title := "a gallery" },
        { url := some "https://i.redd.it/clip.mp4", title := "direct clip", author := "u1" },
        { url := some "https://v.redd.it/xyz", title := "hosted clip", author := "u2",
          fallback_url := some "https://v.redd.it/xyz/DASH_720.mp4" } ]
    let w : World :=
      { pages := fun _ => .ok none, reddit := fun _ => .ok (some feed),
        ytSearch := fun _ => none, ytDetail := fun _ => none,
        tenor := fun _ => none, direct := fun _ => .ok,
        fallback := fun _ => false, ytdlp := fun _ => true }
    let expected : List Clip :=
      [ { source := "animeclips_reddit", url := "https://i.redd.it/clip.mp4",
          title := "direct clip", author := "u1" },
        { source := "animeclips_reddit", url := "https://v.redd.it/xyz/DASH_720.mp4",
          title := "hosted clip", author := "u2" } ]
    scrape_reddit cfg w src = .ok expected
    ∧ expected.length = 2
    ∧ expected.map Clip.url = ["https://i.redd.it/clip.mp4", "https://v.redd.it/xyz/DASH_720.mp4"]
    ∧ "https://www.reddit.com/gallery/abc" ∉ expected.map Clip.url
    ∧ (feed.getD 2 { }).fallback_url = some "https://v.redd.it/xyz/DASH_720.mp4" := by
  exact ⟨rfl, by decide, by decide, by decide, by decide⟩

/-- C9 counterexample: `process_video` does not check whether the target
exists — with the output file already present, invoking the enhancement
operation on an input still upscales its frame and invokes the encoder
(recomputation happens), refuting the claim for the enhancement operation
itself. -/
theorem C9_counterexample_process_video_recomputes :
    let w : SRWorld := { upscale := fun f => some (f + 1),
                         encode := fun frames fps _ => some { frames := frames, fps := fps } }
    let fs : VideoFS := [("in.mp4", { frames := [7], fps := 24 }),
                         ("out.mp4", { frames := [9], fps := 24 })]
    (videoLookup fs "out.mp4").isSome = true
    ∧ SREvent.upscaled 7 ∈ (process_video w fs "in.mp4" (some "out.mp4") none).events
    ∧ SREvent.encoded "out.mp4" ∈ (process_video w fs "in.mp4" (some "out.mp4") none).events := by
  refine ⟨by decide, by decide, by decide⟩

/-- C9 amended: reuse of an already-existing enhancement target happens in
`batch_process_directory` (with `skip_existing`), not in `process_video`:
when the output for the head file exists and `skipExisting` is set, the batch
records the existing output and moves on with no decoding, upscaling, or
encoding for that file, exactly as if only the remaining files were given;
`process_video` itself always recomputes. -/
theorem C9_batch_skip_existing (w : SRWorld) (inputDir outputDir : String)
    (f : String) (rest : List String) (st : BatchState)
    (h : (videoLookup st.fs (outputDir ++ "/" ++ f)).isSome = true) :
    batchLoop w inputDir outputDir true (f :: rest) st
      = batchLoop w inputDir outputDir true rest
          { st with results := st.results ++ [outputDir ++ "/" ++ f] } := by
  conv_lhs => rw [batchLoop]
  rw [if_pos ⟨rfl, h⟩]

/-- C9 witness: the skip at a concrete batch state. -/
theorem C9_batch_skip_existing_witness :
    let w : SRWorld := { upscale := fun f => some f, encode := fun _ _ _ => none }
    let st : BatchState := { fs := [("up/a.mp4", { frames := [1], fps := 10 })] }
    batchLoop w "dl" "up" true ["a.mp4"] st
      = batchLoop w "dl" "up" true []
          { st with results := st.results ++ ["up/a.mp4"] } := by
  intro w st
  exact C9_batch_skip_existing w "dl" "up" "a.mp4" [] st (by decide)

/-- One download iteration only appends to the recorded video list. -/
theorem stepClip_vids_superset (cfg : Config) (w : World) (dir : String)
    (st : DState) (i : Nat) (c : Clip) (x : String) (hx : x ∈ st.vids) :
    x ∈ (stepClip cfg w dir st i c).vids := by
  simp only [stepClip]
  by_cases h1 : destPath dir c ∈ st.fs
  · simp only [if_pos h1]
    split <;> simp [hx]
  · simp only [if_neg h1]
    by_cases h2 : isImageUrl c.url = true
    · simp only [if_pos h2]
      by_cases h3 : cfg.prefer_video = true ∧ cfg.download_limit / 2 ≤ i
      · simp only [if_pos h3]; exact hx
      · simp only [if_neg h3]
        cases w.direct c with
        | ok => exact hx
        | httpFail => exact hx
        | exn =>
          simp only
          split <;> exact hx
    · simp only [if_neg h2]
      by_cases h4 : w.ytdlp c = true
      · simp only [if_pos h4]
        split <;> simp [hx]
      · simp only [if_neg h4]; exact hx

/-- The recorded video list only grows along the download loop. -/
theorem runClips_vids_mono (cfg : Config) (w : World) (dir : String) :
    ∀ (l : List Clip) (st : DState) (i : Nat) (x : String),
      x ∈ st.vids → x ∈ (runClips cfg w dir st i l).vids := by
  intro l
  induction l with
  | nil => intro st i x hx; simpa [runClips] using hx
  | cons c rest ih =>
    intro st i x hx
    simp only [runClips]
    exact ih _ _ x (stepClip_vids_superset cfg w dir st i c x hx)

/-- C10: when the scheduler skips a clip because its derived destination path
already exists and that path has a video suffix (`.mp4`, `.webm`, `.mkv`),
the existing path is still recorded into the downloaded-videos list consumed
by the enhancement stage. -/
theorem C10_skipped_existing_video_recorded (cfg : Config) (w : World)
    (dir : String) (st : DState) (i : Nat) (c : Clip) (rest : List Clip)
    (hfs : destPath dir c ∈ st.fs) (hvid : isVideoSuffix (destPath dir c) = true) :
    destPath dir c ∈ (runClips cfg w dir st i (c :: rest)).vids := by
  simp only [runClips]
  refine runClips_vids_mono cfg w dir rest _ _ _ ?_
  unfold stepClip
  rw [if_pos hfs]
  simp [hvid]

/-- C10 witness: a clip whose destination already exists as a video file is
recorded at a concrete state. -/
theorem C10_skipped_existing_video_recorded_witness :
    let w : World :=
      { pages := fun _ => .ok none, reddit := fun _ => .ok none,
        ytSearch := fun _ => none, ytDetail := fun _ => none,
        tenor := fun _ => none, direct := fun _ => .httpFail,
        fallback := fun _ => false, ytdlp := fun _ => false }
    let c : Clip := { source := "sakugabooru", url := "https://www.sakugabooru.com/data/x.mp4" }
    let st : DState := { fs := ["downloads/x.mp4"] }
    destPath "downloads" c ∈ (runClips { download_limit := 10 } w "downloads" st 0 [c]).vids := by
  intro w c st
  exact C10_skipped_existing_video_recorded { download_limit := 10 } w "downloads" st 0 c []
    (by decide) (by decide)

/-- C1 witness: the bounds at a concrete configuration and world, the two
`Except` hypotheses discharged by evaluation. -/
theorem C1_fetch_bounded_witness :
    let cfg : Config := { download_limit := 2 }
    let w : World :=
      { pages := fun _ => .ok none, reddit := fun _ => .ok (some [{ url := some "https://i.redd.it/a.mp4" }]),
        ytSearch := fun _ => some [], ytDetail := fun _ => none,
        tenor := fun _ => some [], direct := fun _ => .ok,
        fallback := fun _ => false, ytdlp := fun _ => true }
    let src : SourceCfg := { name := "animeclips_reddit", max_items := 1, max_pages := 1 }
    ([] : List Clip).length ≤ cfg.download_limit
    ∧ ([{ source := "animeclips_reddit", url := "https://i.redd.it/a.mp4" : Clip }]).length
        ≤ src.max_items
    ∧ (scrape_youtube w src).length ≤ src.max_results
    ∧ (scrape_tenor cfg w src).length ≤ cfg.download_limit := by
  intro cfg w src
  have h := C1_fetch_bounded cfg w src []
    [{ source := "animeclips_reddit", url := "https://i.redd.it/a.mp4" }]
  exact ⟨h.1 rfl, h.2.1 rfl, h.2.2.1, h.2.2.2⟩

/-- C6: when `prefer_video` is set, the scheduler stable-sorts the references
into three classes before transferring — direct video-file URLs (lowercased
URL ending in `.mp4`/`.webm`, key 0) first, URLs of the search-engine site
(containing `youtube.com`, key 1) second, everything else (key 2) last — and
within each class the original relative order is preserved: the sorted list
is exactly the concatenation of the three order-preserving filters. -/
theorem C6_prefer_video_ordering (cfg : Config) (w : World) (dir : String)
    (clips : List Clip) (fs0 : List String) :
    sortClips clips = clips.filter (fun c => sortKey c == 0)
      ++ clips.filter (fun c => sortKey c == 1)
      ++ clips.filter (fun c => sortKey c == 2)
    ∧ (cfg.prefer_video = true →
        download_clips cfg w dir clips fs0
          = runClips cfg w dir { fs := fs0 } 0 (sortClips clips)) := by
  refine ⟨sortClips_buckets clips, ?_⟩
  intro h
  simp only [download_clips, if_pos h]

/-- C6 witness: the ordering applied at a concrete configuration. -/
theorem C6_prefer_video_ordering_witness :
    let cfg : Config := { download_limit := 10, prefer_video := true }
    let w : World :=
      { pages := fun _ => .ok none, reddit := fun _ => .ok none,
        ytSearch := fun _ => none, ytDetail := fun _ => none,
        tenor := fun _ => none, direct := fun _ => .ok,
        fallback := fun _ => false, ytdlp := fun _ => true }
    let clips : List Clip :=
      [ { url := "http://a/x.gif" }, { url := "https://www.youtube.com/watch?v=1" },
        { url := "http://b/y.mp4" } ]
    download_clips cfg w "downloads" clips []
      = runClips cfg w "downloads" { fs := [] } 0 (sortClips clips) := by
  intro cfg w clips
  exact (C6_prefer_video_ordering cfg w "downloads" clips []).2 rfl

/-- C7 counterexample: for an image-class URL whose direct byte-stream
transfer fails with a non-success HTTP status, the scheduler does not attempt
the media-extraction fallback — it gives up on the item directly (no file is
created and no fallback attempt is logged), refuting the claim that every
direct-transfer failure triggers the fallback. -/
theorem C7_counterexample_http_failure_no_fallback :
    let cfg : Config := { download_limit := 10, prefer_video := false }
    let w : World :=
      { pages := fun _ => .ok none, reddit := fun _ => .ok none,
        ytSearch := fun _ => none, ytDetail := fun _ => none,
        tenor := fun _ => none, direct := fun _ => .httpFail,
        fallback := fun _ => true, ytdlp := fun _ => true }
    let c : Clip := { source := "animeclips_reddit", url := "https://i.redd.it/a.gif" }
    isImageUrl c.url = true
    ∧ w.direct c ≠ DirectOutcome.ok
    ∧ DEvent.fallbackTried c ∉ (stepClip cfg w "downloads" { } 0 c).events
    ∧ (stepClip cfg w "downloads" { } 0 c).fs = ({ } : DState).fs := by
  exact ⟨by decide, by decide, by decide, by decide⟩

/-- C7 amended: for an image-class reference that is not skipped, the
media-extraction fallback is attempted exactly when the direct byte-stream
transfer raises an exception (a non-success HTTP status is given up without
fallback); a failed fallback leaves the file system and write log unchanged,
and the loop always proceeds to the remaining references. -/
theorem C7_image_fallback_on_exception (cfg : Config) (w : World) (dir : String)
    (st : DState) (i : Nat) (c : Clip)
    (hfs : destPath dir c ∉ st.fs) (himg : isImageUrl c.url = true)
    (hskip : ¬ (cfg.prefer_video = true ∧ cfg.download_limit / 2 ≤ i))
    (hexn : w.direct c = DirectOutcome.exn) :
    DEvent.fallbackTried c ∈ (stepClip cfg w dir st i c).events
    ∧ (w.fallback c = false →
        (stepClip cfg w dir st i c).fs = st.fs
        ∧ (stepClip cfg w dir st i c).writes = st.writes)
    ∧ (∀ rest : List Clip,
        runClips cfg w dir st i (c :: rest)
          = runClips cfg w dir (stepClip cfg w dir st i c) (i + 1) rest) := by
  refine ⟨?_, ?_, fun rest => rfl⟩
  · simp only [stepClip, if_neg hfs, if_pos himg, if_neg hskip, hexn]
    split <;> simp
  · intro hf
    simp only [stepClip, if_neg hfs, if_pos himg, if_neg hskip, hexn, hf]
    exact ⟨rfl, rfl⟩

/-- C7 witness: the fallback attempt at a concrete state whose direct
transfer raises. -/
theorem C7_image_fallback_on_exception_witness :
    let cfg : Config := { download_limit := 10, prefer_video := false }
    let w : World :=
      { pages := fun _ => .ok none, reddit := fun _ => .ok none,
        ytSearch := fun _ => none, ytDetail := fun _ => none,
        tenor := fun _ => none, direct := fun _ => .exn,
        fallback := fun _ => false, ytdlp := fun _ => true }
    let c : Clip := { source := "animeclips_reddit", url := "https://i.redd.it/a.gif" }
    DEvent.fallbackTried c ∈ (stepClip cfg w "downloads" { } 0 c).events
    ∧ ((stepClip cfg w "downloads" { } 0 c).fs = ({ } : DState).fs
        ∧ (stepClip cfg w "downloads" { } 0 c).writes = ({ } : DState).writes)
    ∧ runClips cfg w "downloads" { } 0 [c]
        = runClips cfg w "downloads" (stepClip cfg w "downloads" { } 0 c) 1 [] := by
  intro cfg w c
  have h := C7_image_fallback_on_exception cfg w "downloads" { } 0 c
    (by decide) (by decide) (by decide) rfl
  exact ⟨h.1, h.2.1 rfl, h.2.2 []⟩

namespace ClipScraper

/-- Every character surviving the filename sanitizer is in the safe set. -/
theorem sanitizeFilename_safe (s : String) :
    (sanitizeFilename s).data.all safeChar = true := by
  simp only [sanitizeFilename]
  rw [List.all_eq_true]
  intro c hc
  obtain ⟨a, _, rfl⟩ := List.mem_map.mp hc
  by_cases ha : safeChar a = true
  · rw [if_pos ha]; exact ha
  · rw [if_neg ha]; decide

/-- A string of safe characters contains no slash. -/
theorem all_safe_no_slash (l : List Char) (h : l.all safeChar = true) :
    ∀ x ∈ l, x ≠ '/' := by
  intro x hx heq
  subst heq
  exact absurd (List.all_eq_true.mp h '/' hx) (by decide)

/-- The last occurrence of a character found in the right part of an append. -/
theorem rfindIdx_append_some (c : Char) (l₁ l₂ : List Char) (j : Nat)
    (h : rfindIdx c l₂ = some j) :
    rfindIdx c (l₁ ++ l₂) = some (l₁.length + j) := by
  induction l₁ with
  | nil => simpa using h
  | cons x xs ih =>
    simp only [List.cons_append, rfindIdx, List.append_eq, ih, List.length_cons]
    exact congrArg some (by omega)

/-- A character absent from a list is not found. -/
theorem rfindIdx_eq_none (c : Char) (l : List Char) (h : ∀ x ∈ l, x ≠ c) :
    rfindIdx c l = none := by
  induction l with
  | nil => rfl
  | cons x xs ih =>
    simp only [rfindIdx]
    rw [ih (fun y hy => h y (List.mem_cons_of_mem x hy))]
    rw [if_neg (h x (List.mem_cons_self x xs))]

/-- Appending `.mp4` to a slash-free name with at least one non-dot character
yields a name whose `splitext` extension is exactly `.mp4`. -/
theorem splitextCore_append_mp4 (l : List Char)
    (hslash : ∀ x ∈ l, x ≠ '/') (hdot : ∃ ch ∈ l, ch ≠ '.') :
    splitextCore (l ++ ['.', 'm', 'p', '4']) = (l, ['.', 'm', 'p', '4']) := by
  have hdotfind : rfindIdx '.' (l ++ ['.', 'm', 'p', '4']) = some l.length := by
    have h0 : rfindIdx '.' ['.', 'm', 'p', '4'] = some 0 := by decide
    simpa using rfindIdx_append_some '.' l ['.', 'm', 'p', '4'] 0 h0
  have hslashfind : rfindIdx '/' (l ++ ['.', 'm', 'p', '4']) = none := by
    refine rfindIdx_eq_none '/' _ ?_
    intro x hx
    rcases List.mem_append.mp hx with h1 | h2
    · exact hslash x h1
    · simp only [List.mem_cons, List.not_mem_nil, or_false] at h2
      rcases h2 with rfl | rfl | rfl | rfl <;> decide
  simp only [splitextCore, hdotfind, hslashfind]
  rw [if_pos ?hc]
  case hc =>
    refine ⟨Nat.zero_le _, ?_⟩
    simp only [List.drop_zero, Nat.sub_zero]
    obtain ⟨ch, hch, hne⟩ := hdot
    rw [List.take_left]
    rw [List.any_eq_true]
    exact ⟨ch, hch, by simpa using hne⟩
  rw [List.take_left, List.drop_left]

end ClipScraper

/-- C5 counterexample: filename derivation is not extension-total — for the
URL `https://example.com/` (empty path basename) the derived filename is the
bare default suffix `.mp4`, whose `os.path.splitext` extension is empty
(Python treats it as an extensionless dotfile), refuting "always has a
non-empty extension". -/
theorem C5_counterexample_extensionless :
    deriveFilename { url := "https://example.com/" } = ".mp4"
    ∧ (splitext (deriveFilename { url := "https://example.com/" })).2 = "" := by
  exact ⟨by decide, by decide⟩

/-- C5 amended: the derived filename always consists solely of safe
characters (word characters, hyphen, underscore, dot), and it has a non-empty
`splitext` extension whenever the sanitized name contains at least one
non-dot character; for degenerate URLs whose sanitized basename is empty or
all dots, the derived name is the bare default suffix, which `splitext`
treats as extensionless. -/
theorem C5_filename_sanitization (clip : Clip) :
    (deriveFilename clip).data.all safeChar = true
    ∧ ((∃ ch ∈ (preExtFilename clip).data, ch ≠ '.') →
        (splitext (deriveFilename clip)).2 ≠ "") := by
  constructor
  · simp only [deriveFilename]
    split
    · rw [String.data_append, List.all_append]
      rw [Bool.and_eq_true]
      refine ⟨?_, by decide⟩
      exact sanitizeFilename_safe (rawFilename clip)
    · exact sanitizeFilename_safe (rawFilename clip)
  · rintro ⟨ch, hch, hne⟩
    simp only [deriveFilename]
    split
    · have hslash : ∀ x ∈ (preExtFilename clip).data, x ≠ '/' :=
        all_safe_no_slash _ (sanitizeFilename_safe (rawFilename clip))
      have hcore := splitextCore_append_mp4 (preExtFilename clip).data hslash ⟨ch, hch, hne⟩
      have hdata : (preExtFilename clip ++ ".mp4").data
          = (preExtFilename clip).data ++ ['.', 'm', 'p', '4'] := by
        rw [String.data_append]
      simp only [splitext, hdata, hcore]
      decide
    · exact ‹¬ (splitext (preExtFilename clip)).2 = ""›

/-- C5 witness: both parts at a concrete Sakugabooru-style URL. -/
theorem C5_filename_sanitization_witness :
    let clip : Clip := { source := "sakugabooru",
                         url := "https://www.sakugabooru.com/data/clip01.webm" }
    (deriveFilename clip).data.all safeChar = true
    ∧ (splitext (deriveFilename clip)).2 ≠ "" := by
  intro clip
  have h := C5_filename_sanitization clip
  exact ⟨h.1, h.2 ⟨'c', by decide, by decide⟩⟩

namespace ClipScraper

/-- When the destination path already exists, the iteration only records the
video and logs the skip: files, vids and writes follow the skip branch of
clip_scraper.py 417-422. -/
theorem stepClip_mem_fs (cfg : Config) (w : World) (dir : String) (st : DState)
    (i : Nat) (c : Clip) (h : destPath dir c ∈ st.fs) :
    stepClip cfg w dir st i c
      = { st with
          vids := if isVideoSuffix (destPath dir c) then st.vids ++ [destPath dir c]
            else st.vids,
          events := st.events ++ [.skippedExisting c] } := by
  simp only [stepClip]
  rw [if_pos h]

/-- When the destination path does not exist, the iteration creates the file
exactly when `addsFile` says so, and logs exactly that write. -/
theorem stepClip_not_mem (cfg : Config) (w : World) (dir : String) (st : DState)
    (i : Nat) (c : Clip) (h : destPath dir c ∉ st.fs) :
    (stepClip cfg w dir st i c).fs
      = (if addsFile cfg w i c then destPath dir c :: st.fs else st.fs)
    ∧ (stepClip cfg w dir st i c).writes
      = st.writes ++ (if addsFile cfg w i c then [destPath dir c] else []) := by
  by_cases h2 : isImageUrl c.url = true
  · by_cases h3 : cfg.prefer_video = true ∧ cfg.download_limit / 2 ≤ i
    · simp [stepClip, addsFile, h, h2, h3]
    · cases hd : w.direct c with
      | ok => simp [stepClip, addsFile, h, h2, h3, hd]
      | httpFail => simp [stepClip, addsFile, h, h2, h3, hd]
      | exn =>
        by_cases hf : w.fallback c = true
        · simp [stepClip, addsFile, h, h2, h3, hd, hf]
        · simp [stepClip, addsFile, h, h2, h3, hd, hf]
  · by_cases h4 : w.ytdlp c = true
    · simp [stepClip, addsFile, h, h2, h4]
    · simp [stepClip, addsFile, h, h2, h4]

/-- One download iteration never removes a file. -/
theorem stepClip_fs_superset (cfg : Config) (w : World) (dir : String)
    (st : DState) (i : Nat) (c : Clip) (x : String) (hx : x ∈ st.fs) :
    x ∈ (stepClip cfg w dir st i c).fs := by
  by_cases h : destPath dir c ∈ st.fs
  · rw [stepClip_mem_fs cfg w dir st i c h]
    exact hx
  · rw [(stepClip_not_mem cfg w dir st i c h).1]
    split
    · exact List.mem_cons_of_mem _ hx
    · exact hx

/-- The file set only grows along the download loop. -/
theorem runClips_fs_mono (cfg : Config) (w : World) (dir : String) :
    ∀ (l : List Clip) (st : DState) (i : Nat) (x : String),
      x ∈ st.fs → x ∈ (runClips cfg w dir st i l).fs := by
  intro l
  induction l with
  | nil => intro st i x hx; simpa [runClips] using hx
  | cons c rest ih =>
    intro st i x hx
    simp only [runClips]
    exact ih _ _ x (stepClip_fs_superset cfg w dir st i c x hx)

/-- Re-running the download loop from a file set that already contains
everything the first run produced changes nothing: every destination either
exists (skip branch) or its transfer deterministically fails again, so the
file set is unchanged and no file is written. -/
theorem runClips_rerun (cfg : Config) (w : World) (dir : String) :
    ∀ (l : List Clip) (i : Nat) (st₁ st₂ : DState),
      (∀ p, p ∈ (runClips cfg w dir st₁ i l).fs → p ∈ st₂.fs) →
      (runClips cfg w dir st₂ i l).fs = st₂.fs
      ∧ (runClips cfg w dir st₂ i l).writes = st₂.writes := by
  intro l
  induction l with
  | nil => intro i st₁ st₂ _; exact ⟨rfl, rfl⟩
  | cons c rest ih =>
    intro i st₁ st₂ hsub
    simp only [runClips] at hsub ⊢
    by_cases hp : destPath dir c ∈ st₂.fs
    · have hstep := stepClip_mem_fs cfg w dir st₂ i c hp
      have hfs2 : (stepClip cfg w dir st₂ i c).fs = st₂.fs := by rw [hstep]
      have hwr2 : (stepClip cfg w dir st₂ i c).writes = st₂.writes := by rw [hstep]
      have hih := ih (i + 1) (stepClip cfg w dir st₁ i c) (stepClip cfg w dir st₂ i c)
        (fun p hpm => by rw [hfs2]; exact hsub p hpm)
      rw [hih.1, hih.2, hfs2, hwr2]
      exact ⟨rfl, rfl⟩
    · have hnot1 : destPath dir c ∉ st₁.fs := by
        intro hmem
        exact hp (hsub _ (runClips_fs_mono cfg w dir rest _ _ _
          (stepClip_fs_superset cfg w dir st₁ i c _ hmem)))
      have haf : addsFile cfg w i c = false := by
        by_contra hba
        have hba' : addsFile cfg w i c = true := by
          revert hba; cases addsFile cfg w i c <;> simp
        have h1 := (stepClip_not_mem cfg w dir st₁ i c hnot1).1
        rw [hba'] at h1
        simp only [if_true] at h1
        have hmem : destPath dir c ∈ (stepClip cfg w dir st₁ i c).fs := by
          rw [h1]; exact List.mem_cons_self _ _
        exact hp (hsub _ (runClips_fs_mono cfg w dir rest _ _ _ hmem))
      have hfs2 : (stepClip cfg w dir st₂ i c).fs = st₂.fs := by
        have h1 := (stepClip_not_mem cfg w dir st₂ i c hp).1
        rw [haf] at h1
        simpa using h1
      have hwr2 : (stepClip cfg w dir st₂ i c).writes = st₂.writes := by
        have h1 := (stepClip_not_mem cfg w dir st₂ i c hp).2
        rw [haf] at h1
        simpa using h1
      have hih := ih (i + 1) (stepClip cfg w dir st₁ i c) (stepClip cfg w dir st₂ i c)
        (fun p hpm => by rw [hfs2]; exact hsub p hpm)
      rw [hih.1, hih.2, hfs2, hwr2]
      exact ⟨rfl, rfl⟩

end ClipScraper

/-- C2: download materialization is idempotent.  First conjunct: if the
derived destination path already exists, the iteration performs no transfer —
the file set and the write log are unchanged (no overwrite, no renaming).
Consequently (second and third conjuncts), running the scheduler a second
time with the same references and destination over the file set produced by
the first run leaves the file set exactly as it was and writes no file at
all: the second run's file-system side effects are empty. -/
theorem C2_download_idempotent (cfg : Config) (w : World) (dir : String)
    (clips : List Clip) (fs0 : List String) (st : DState) (i : Nat) (c : Clip) :
    (destPath dir c ∈ st.fs →
      (stepClip cfg w dir st i c).fs = st.fs
      ∧ (stepClip cfg w dir st i c).writes = st.writes)
    ∧ (download_clips cfg w dir clips (download_clips cfg w dir clips fs0).fs).fs
        = (download_clips cfg w dir clips fs0).fs
    ∧ (download_clips cfg w dir clips (download_clips cfg w dir clips fs0).fs).writes
        = [] := by
  refine ⟨?_, ?_⟩
  · intro h
    rw [stepClip_mem_fs cfg w dir st i c h]
    exact ⟨rfl, rfl⟩
  · simp only [download_clips]
    exact runClips_rerun cfg w dir _ 0 { fs := fs0 } _ (fun p hp => hp)

/-- C2 witness: the skip branch and the empty second run at a concrete
reference list. -/
theorem C2_download_idempotent_witness :
    let cfg : Config := { download_limit := 10, prefer_video := true }
    let w : World :=
      { pages := fun _ => .ok none, reddit := fun _ => .ok none,
        ytSearch := fun _ => none, ytDetail := fun _ => none,
        tenor := fun _ => none, direct := fun _ => .ok,
        fallback := fun _ => false, ytdlp := fun _ => true }
    let c : Clip := { source := "sakugabooru", url := "https://www.sakugabooru.com/data/x.mp4" }
    let st : DState := { fs := ["downloads/x.mp4"] }
    ((stepClip cfg w "downloads" st 0 c).fs = st.fs
      ∧ (stepClip cfg w "downloads" st 0 c).writes = st.writes)
    ∧ (download_clips cfg w "downloads" [c]
        (download_clips cfg w "downloads" [c] []).fs).fs
        = (download_clips cfg w "downloads" [c] []).fs
    ∧ (download_clips cfg w "downloads" [c]
        (download_clips cfg w "downloads" [c] []).fs).writes = [] := by
  intro cfg w c st
  have h := C2_download_idempotent cfg w "downloads" [c] [] st 0 c
  exact ⟨h.1 (by decide), h.2.1, h.2.2⟩

namespace ClipScraper

/-- The source loop accumulates per-source contributions in configuration
order. -/
theorem scrapeLoop_eq_join (cfg : Config) (w : World) :
    ∀ srcs : List SourceCfg,
      scrapeLoop cfg w srcs = (srcs.map (sourceClips cfg w)).flatten := by
  intro srcs
  induction srcs with
  | nil => rfl
  | cons s rest ih => simp [scrapeLoop, ih]

end ClipScraper

/-- C3: the orchestrator dispatches each configured source by name,
concatenates the adapter outputs in configuration order and truncates the
combination to `download_limit` before handing it to the download stage
(first and second conjuncts); a source of unknown name contributes nothing
and the remaining sources still contribute (third conjunct); a source whose
adapter raises is logged and contributes nothing, without stopping the
remaining sources (fourth and fifth conjuncts). -/
theorem C3_orchestrator_skips_and_truncates (cfg : Config) (w : World)
    (dir : String) (fs0 : List String) :
    (scrape cfg w dir fs0).1
      = ((cfg.sources.map (sourceClips cfg w)).flatten).take cfg.download_limit
    ∧ (scrape cfg w dir fs0).2 = download_clips cfg w dir (scrape cfg w dir fs0).1 fs0
    ∧ (∀ s : SourceCfg,
        s.name ∉ (["sakugabooru", "animeclips_reddit", "tenor_anime",
          "youtube_anime"] : List String) →
        sourceClips cfg w s = [])
    ∧ (∀ s : SourceCfg, s.name = "sakugabooru" →
        scrape_sakugabooru cfg w s = .error () → sourceClips cfg w s = [])
    ∧ (∀ s : SourceCfg, s.name = "animeclips_reddit" →
        scrape_reddit cfg w s = .error () → sourceClips cfg w s = []) := by
  refine ⟨?_, rfl, ?_, ?_, ?_⟩
  · simp only [scrape]
    rw [scrapeLoop_eq_join]
  · intro s hns
    simp only [List.mem_cons, List.not_mem_nil, or_false, not_or] at hns
    obtain ⟨h1, h2, h3, h4⟩ := hns
    simp [sourceClips, h1, h2, h3, h4]
  · intro s hn he
    simp [sourceClips, hn, he]
  · intro s hn he
    simp [sourceClips, hn, he]

/-- C3 witness: a run over a configuration holding an unknown source and two
sources whose adapters raise still aggregates (to the empty list) and the
per-source conclusions hold concretely. -/
theorem C3_orchestrator_skips_and_truncates_witness :
    let w : World :=
      { pages := fun _ => .error (), reddit := fun _ => .error (),
        ytSearch := fun _ => none, ytDetail := fun _ => none,
        tenor := fun _ => none, direct := fun _ => .ok,
        fallback := fun _ => false, ytdlp := fun _ => true }
    let sUnknown : SourceCfg := { name := "mystery_source" }
    let sSak : SourceCfg := { name := "sakugabooru",
                              base_url := "https://www.sakugabooru.com/post?tags=animated+mp4",
                              max_pages := 1 }
    let sRed : SourceCfg := { name := "animeclips_reddit",
                              base_url := "https://www.reddit.com/r/AnimeSakuga/hot/.json",
                              max_items := 20 }
    let cfg : Config := { sources := [sUnknown, sSak, sRed], download_limit := 5 }
    (scrape cfg w "downloads" []).1
      = ((cfg.sources.map (sourceClips cfg w)).flatten).take cfg.download_limit
    ∧ sourceClips cfg w sUnknown = []
    ∧ sourceClips cfg w sSak = []
    ∧ sourceClips cfg w sRed = [] := by
  intro w sUnknown sSak sRed cfg
  have h := C3_orchestrator_skips_and_truncates cfg w "downloads" []
  exact ⟨h.1, h.2.2.1 sUnknown (by decide), h.2.2.2.1 sSak rfl rfl, h.2.2.2.2 sRed rfl rfl⟩
